import Mathlib

/-!
# Maritime Job Market Widget — verification of the CSV ingestion core

Shallow embedding of the widget's CSV extraction pipeline and freshness
cache, translated from the JavaScript sources (`maritime-widget.js` and the
unnamed variant files).  Strings are modelled as `List Char`; machine
numbers as `Int`/`Nat`.
-/

namespace MaritimeWidget

/-- Whitespace predicate used by the model of JavaScript `String.prototype.trim`. -/
def isWS (c : Char) : Bool :=
  c = ' ' || c = '\t' || c = '\n' || c = '\r'

/-- Model of JavaScript `String.prototype.trim` on character lists:
drop leading and trailing whitespace. -/
def trimChars (l : List Char) : List Char :=
  ((l.dropWhile isWS).reverse.dropWhile isWS).reverse

/-- Model of JavaScript `str.split('\n')`: split on every newline, keeping
empty segments (`"".split('\n') == [""]`, `"a\n".split('\n') == ["a",""]`). -/
def splitOnNewline : List Char → List (List Char)
  | [] => [[]]
  | c :: rest =>
    let r := splitOnNewline rest
    if c = '\n' then [] :: r
    else (c :: r.headD []) :: r.tail

/-- Model of JavaScript `str.replace(/x/g, '')` for a single character `x`:
remove every occurrence. -/
def removeAll (x : Char) (l : List Char) : List Char :=
  l.filter (fun c => c ≠ x)

/-- Tokenizer loop of `parseCSVLine` (all source variants share it verbatim):
`cur` is the current cell buffer, `inQuotes` the single piece of state.
A `"` toggles `inQuotes`; a `,` outside quotes flushes the trimmed buffer
as a cell; any other character accumulates; the final buffer is flushed
trimmed at end of line. -/
def parseCSVLineAux : List Char → List Char → Bool → List (List Char)
  | [], cur, _ => [trimChars cur]
  | c :: rest, cur, inQuotes =>
    if c = '"' then
      parseCSVLineAux rest cur (!inQuotes)
    else if c = ',' ∧ inQuotes = false then
      trimChars cur :: parseCSVLineAux rest [] inQuotes
    else
      parseCSVLineAux rest (cur ++ [c]) inQuotes

/-- `parseCSVLine` on character lists. -/
def parseCSVLineChars (line : List Char) : List (List Char) :=
  parseCSVLineAux line [] false

/-- `parseCSVLine` at the `String` level. -/
def parseCSVLine (line : String) : List String :=
  (parseCSVLineChars line.data).map fun cs => String.mk cs

/-! ## Models of the JavaScript numeric builtins used by the extractor

The sources call `parseInt(s)` (no radix argument) and the guard
`!isNaN(s)` (which coerces the string through `Number(s)`).  Both are
modelled below following the ECMAScript string-to-number grammars.
`parseInt` mathematically returns an exact integer here; the JavaScript
original returns a float, which only diverges above 2^53 — far beyond
the job-count magnitudes this widget handles. -/

/-- Value of a decimal digit character, `none` for non-digits
(working on the code point: `'0'` is 48). -/
def decDigitVal (c : Char) : Option Nat :=
  let n := c.toNat
  if 48 ≤ n ∧ n ≤ 57 then some (n - 48) else none

/-- Value of a hexadecimal digit character, `none` for non-digits
(code points: `'0'` = 48, `'a'` = 97, `'A'` = 65). -/
def hexDigitVal (c : Char) : Option Nat :=
  let n := c.toNat
  if 48 ≤ n ∧ n ≤ 57 then some (n - 48)
  else if 97 ≤ n ∧ n ≤ 102 then some (n - 87)
  else if 65 ≤ n ∧ n ≤ 70 then some (n - 55)
  else none

/-- Model of JavaScript `parseInt(s)` with no radix argument: skip leading
whitespace, read an optional sign, detect a `0x`/`0X` hex prefix (else
radix 10), consume the maximal run of digits, and return `none` (NaN)
when that run is empty. -/
def jsParseInt (s : List Char) : Option Int :=
  let s := s.dropWhile isWS
  let (sign, s) : Int × List Char :=
    match s with
    | '-' :: r => (-1, r)
    | '+' :: r => (1, r)
    | _ => (1, s)
  let (digVal, base, s) : (Char → Option Nat) × Nat × List Char :=
    match s with
    | '0' :: 'x' :: r => (hexDigitVal, 16, r)
    | '0' :: 'X' :: r => (hexDigitVal, 16, r)
    | _ => (decDigitVal, 10, s)
  let ds := s.takeWhile fun c => (digVal c).isSome
  if ds = [] then none
  else some (sign * Int.ofNat (ds.foldl (fun acc c => acc * base + (digVal c).getD 0) 0))

/-- The `parseInt(x) || 0` idiom from the sources: NaN coerces to 0
(and a 0 result stays 0, so `getD 0` is exact). -/
def parseIntOr0 (s : List Char) : Int :=
  (jsParseInt s).getD 0

/-- Optional exponent tail of an ECMAScript decimal literal:
empty, or `e`/`E`, optional sign, one or more digits. -/
def expTail : List Char → Bool
  | [] => true
  | c :: r =>
    (c = 'e' || c = 'E') &&
    (match r with
     | s :: r2 =>
       if s = '+' || s = '-' then r2 ≠ [] && r2.all Char.isDigit
       else r ≠ [] && r.all Char.isDigit
     | [] => false)

/-- Unsigned part of an ECMAScript `StrDecimalLiteral`:
`Infinity`, `digits [. digits] [exp]`, or `. digits [exp]`. -/
def unsignedDecNumeric (l : List Char) : Bool :=
  if l = "Infinity".data then true
  else
    let d1 := l.takeWhile Char.isDigit
    let r1 := l.dropWhile Char.isDigit
    if d1 ≠ [] then
      match r1 with
      | '.' :: r2 => expTail (r2.dropWhile Char.isDigit)
      | _ => expTail r1
    else
      match l with
      | '.' :: r2 =>
        r2.takeWhile Char.isDigit ≠ [] && expTail (r2.dropWhile Char.isDigit)
      | _ => false

/-- Signed decimal ECMAScript string literal. -/
def signedDecNumeric : List Char → Bool
  | '+' :: r => unsignedDecNumeric r
  | '-' :: r => unsignedDecNumeric r
  | l => unsignedDecNumeric l

/-- Model of the JavaScript guard `!isNaN(s)` for a string `s`: true iff
`Number(s)` is not NaN, per the `StringNumericLiteral` grammar (the empty
or all-whitespace string converts to 0, hence is numeric). -/
def jsIsNumeric (s : List Char) : Bool :=
  let t := trimChars s
  if t = [] then true
  else
    match t with
    | '0' :: c :: r =>
      if c = 'x' || c = 'X' then r ≠ [] && r.all fun d => (hexDigitVal d).isSome
      else if c = 'o' || c = 'O' then r ≠ [] && r.all fun d => d.isDigit && d ≤ '7'
      else if c = 'b' || c = 'B' then r ≠ [] && r.all fun d => d = '0' || d = '1'
      else signedDecNumeric t
    | _ => signedDecNumeric t

/-! ## `parseCSVData` — fixed-position variant (`src/unnamed/part_000`)

Row 3 column C holds the total-jobs metric, row 10 column B the
California metric; rows 18–27 are city entries, rows 53–62 job-title
entries (with pay range), rows 67–76 company entries.  Summary fields
start absent (the JS object `{}`) and are modelled as `Option Int`:
`none` is a field never assigned, i.e. `undefined` on access. -/

namespace Part000

structure Summary where
  totalJobs : Option Int := none
  californiaJobs : Option Int := none
deriving DecidableEq

structure JobTitleEntry where
  title : List Char
  openings : Int
  payRange : List Char
deriving DecidableEq

structure CityEntry where
  city : List Char
  count : Int
deriving DecidableEq

structure CompanyEntry where
  company : List Char
  count : Int
deriving DecidableEq

structure Report where
  summary : Summary := {}
  jobTitles : List JobTitleEntry := []
  companies : List CompanyEntry := []
  cities : List CityEntry := []
deriving DecidableEq

/-- Row-3 rule of `parseCSVData` (part_000): Total Active Jobs in column C.
The cell is stripped of commas and quotes and trimmed; the assignment is
guarded by non-emptiness and `!isNaN(value)`. -/
def rowTotal (rowNumber : Nat) (cells : List (List Char)) (data : Report) : Report :=
  if rowNumber = 3 ∧ 3 ≤ cells.length then
    let value := trimChars (removeAll '"' (removeAll ',' (cells.getD 2 [])))
    if value ≠ [] ∧ jsIsNumeric value then
      { data with summary := { data.summary with totalJobs := some (parseIntOr0 value) } }
    else data
  else data

/-- Row-10 rule of `parseCSVData` (part_000): California jobs in column B. -/
def rowCalifornia (rowNumber : Nat) (cells : List (List Char)) (data : Report) : Report :=
  if rowNumber = 10 ∧ 2 ≤ cells.length then
    let value := trimChars (removeAll '"' (removeAll ',' (cells.getD 1 [])))
    if value ≠ [] ∧ jsIsNumeric value then
      { data with summary := { data.summary with californiaJobs := some (parseIntOr0 value) } }
    else data
  else data

/-- Rows 18–27 rule of `parseCSVData` (part_000): California cities;
entries need a non-empty, non-header label and a positive count. -/
def rowCities (rowNumber : Nat) (cells : List (List Char)) (data : Report) : Report :=
  if 18 ≤ rowNumber ∧ rowNumber ≤ 27 ∧ 2 ≤ cells.length then
    let city := trimChars (removeAll '"' (cells.getD 0 []))
    let count := parseIntOr0 (removeAll '"' (removeAll ',' (cells.getD 1 [])))
    if city ≠ [] ∧ city ≠ "City".data ∧ 0 < count then
      { data with cities := data.cities ++ [⟨city, count⟩] }
    else data
  else data

/-- Rows 53–62 rule of `parseCSVData` (part_000): job titles with pay
ranges.  The filter checks the label only — there is no positive-count
condition on `openings` here, unlike the city and company rules. -/
def rowJobTitles (rowNumber : Nat) (cells : List (List Char)) (data : Report) : Report :=
  if 53 ≤ rowNumber ∧ rowNumber ≤ 62 ∧ 2 ≤ cells.length then
    let jobTitle := trimChars (removeAll '"' (cells.getD 0 []))
    let openings := parseIntOr0 (removeAll '"' (removeAll ',' (cells.getD 1 [])))
    let payRange := if 3 ≤ cells.length then trimChars (removeAll '"' (cells.getD 2 [])) else []
    if jobTitle ≠ [] ∧ jobTitle ≠ "Job Title".data then
      { data with jobTitles := data.jobTitles ++ [⟨jobTitle, openings, payRange⟩] }
    else data
  else data

/-- Rows 67–76 rule of `parseCSVData` (part_000): top companies;
entries need a non-empty, non-header label and a positive count. -/
def rowCompanies (rowNumber : Nat) (cells : List (List Char)) (data : Report) : Report :=
  if 67 ≤ rowNumber ∧ rowNumber ≤ 76 ∧ 2 ≤ cells.length then
    let company := trimChars (removeAll '"' (cells.getD 0 []))
    let count := parseIntOr0 (removeAll '"' (removeAll ',' (cells.getD 1 [])))
    if company ≠ [] ∧ company ≠ "Company Name".data ∧ 0 < count then
      { data with companies := data.companies ++ [⟨company, count⟩] }
    else data
  else data

/-- Body of the `for` loop of `parseCSVData` (part_000): one source line at
1-indexed `rowNumber`, updating the report under construction.  Empty
(after trim) lines are skipped; the five positional rules fire in source
order, each independently of the others. -/
def processRow (rowNumber : Nat) (rawLine : List Char) (data : Report) : Report :=
  let line := trimChars rawLine
  if line = [] then data
  else
    let cells := parseCSVLineChars line
    rowCompanies rowNumber cells
      (rowJobTitles rowNumber cells
        (rowCities rowNumber cells
          (rowCalifornia rowNumber cells
            (rowTotal rowNumber cells data))))

/-- `parseCSVData` (part_000) on character lists: split into lines and fold
the row processor over them with 1-indexed row numbers. -/
def parseCSVDataChars (csvText : List Char) : Report :=
  (splitOnNewline csvText).enum.foldl (fun data p => processRow (p.1 + 1) p.2 data) {}

/-- `parseCSVData` (part_000) at the `String` level. -/
def parseCSVData (csvText : String) : Report :=
  parseCSVDataChars csvText.data

end Part000

/-! ## `parseCSVData` — marker-mode variant (third widget in `maritime-widget.js`)

Rows are dispatched on the marker string in column 0 (`Summary`,
`Section`, `CA Cities`, `Top Jobs`, `Top Companies`); a `Section` row
sets the current-section state.  Each ranked list is capped at
`showTopItems`.  Cells read past the end of a row are JavaScript
`undefined`, modelled as `none`. -/

namespace WidgetV3

/-- `parseInt(v) || 0` where `v` may be `undefined` (an out-of-range cell):
`parseInt(undefined)` is NaN, so the idiom yields 0. -/
def parseIntOr0Opt : Option (List Char) → Int
  | some s => parseIntOr0 s
  | none => 0

structure CityEntry where
  name : Option (List Char)
  count : Int
deriving DecidableEq

structure JobEntry where
  title : Option (List Char)
  count : Int
  payRange : List Char
deriving DecidableEq

structure CompanyEntry where
  name : Option (List Char)
  count : Int
deriving DecidableEq

/-- The `currentSection` loop variable (`null` initially). -/
inductive SectionState where
  | noSection
  | cities
  | jobs
  | companies
deriving DecidableEq

structure Report where
  totalJobs : Int := 0
  californiaJobs : Int := 0
  lastUpdated : Option (List Char) := some []
  topCities : List CityEntry := []
  topJobs : List JobEntry := []
  topCompanies : List CompanyEntry := []
deriving DecidableEq

/-- Body of the `for` loop of the marker-mode `parseCSVData`: tokenize the
line, skip it when all cells are empty, then dispatch on the column-0
marker and the current section, pushing list entries only below the
`showTopItems` cap. -/
def processLine (showTopItems : Nat) (st : SectionState × Report) (line : List Char) :
    SectionState × Report :=
  let currentSection := st.1
  let data := st.2
  let cells := parseCSVLineChars line
  if cells.all (fun c => c = []) then (currentSection, data)
  else
    let sect := cells.getD 0 []
    let metric := cells.get? 1
    let value := cells.get? 2
    if sect = "Summary".data then
      if metric = some "Total Active Job Openings".data then
        (currentSection, { data with totalJobs := parseIntOr0Opt value })
      else if metric = some "Job Openings in California".data then
        (currentSection, { data with californiaJobs := parseIntOr0Opt value })
      else if metric = some "Last Updated".data then
        (currentSection, { data with lastUpdated := value })
      else (currentSection, data)
    else if sect = "Section".data then
      if metric = some "City".data then (.cities, data)
      else if metric = some "Job Title".data then (.jobs, data)
      else if metric = some "Company Name".data then (.companies, data)
      else (currentSection, data)
    else if currentSection = .cities ∧ sect = "CA Cities".data then
      if data.topCities.length < showTopItems then
        (currentSection,
         { data with topCities := data.topCities ++ [⟨metric, parseIntOr0Opt value⟩] })
      else (currentSection, data)
    else if currentSection = .jobs ∧ sect = "Top Jobs".data then
      if data.topJobs.length < showTopItems then
        (currentSection,
         { data with topJobs :=
             data.topJobs ++ [⟨metric, parseIntOr0Opt value, cells.getD 3 []⟩] })
      else (currentSection, data)
    else if currentSection = .companies ∧ sect = "Top Companies".data then
      if data.topCompanies.length < showTopItems then
        (currentSection,
         { data with topCompanies := data.topCompanies ++ [⟨metric, parseIntOr0Opt value⟩] })
      else (currentSection, data)
    else (currentSection, data)

/-- Marker-mode `parseCSVData` on character lists: `csvText.trim().split('\n')`
folded through the line processor, starting from the empty report with no
current section. -/
def parseCSVDataChars (showTopItems : Nat) (csvText : List Char) : Report :=
  ((splitOnNewline (trimChars csvText)).foldl (processLine showTopItems)
    (SectionState.noSection, {})).2

/-- Marker-mode `parseCSVData` at the `String` level. -/
def parseCSVData (showTopItems : Nat) (csvText : String) : Report :=
  parseCSVDataChars showTopItems csvText.data

end WidgetV3

/-- CSV payload of the truncation scenario: a job-title section header
followed by the row `Top Jobs,Port Engineer,12,$80k-$100k` twelve times. -/
def scenarioTopJobsCSV : List Char :=
  "Section,Job Title".data ++
    (List.replicate 12 ('\n' :: "Top Jobs,Port Engineer,12,$80k-$100k".data)).flatten

/-- Model of JavaScript `str.includes(sub)`: `sub` occurs as a contiguous
substring (the empty string occurs in everything). -/
def includes (l sub : List Char) : Bool :=
  if sub.isPrefixOf l then true
  else
    match l with
    | [] => false
    | _ :: t => includes t sub

/-! ## `parseCSVData` — marker-mode variant (`src/unnamed/part_001`)

Sections are recognized by `line.includes(...)` on sentinel header
strings; the three data-row markers advance `i` once more (`i++`) to skip
the section's header row.  The `locations` list is capped at
`showLocations` and `companies` at `showCompanies`; the `TOP SKILLS`
section sets a `skills` state that no data branch consumes, so
`jobTitles` always stays empty. -/

namespace Part001

structure Summary where
  totalJobs : Option Int := none
  bayAreaJobs : Option Int := none
deriving DecidableEq

structure LocationEntry where
  location : List Char
  count : Int
deriving DecidableEq

structure JobTitleEntry where
  title : List Char
  count : Int
deriving DecidableEq

structure CompanyEntry where
  company : List Char
  count : Int
deriving DecidableEq

/-- The `currentSection` loop variable (`null` initially). -/
inductive SectionState where
  | nullSec
  | summary
  | locations
  | skills
  | companies
deriving DecidableEq

structure Report where
  summary : Summary := {}
  locations : List LocationEntry := []
  jobTitles : List JobTitleEntry := []
  companies : List CompanyEntry := []
  lastUpdated : Option (List Char) := none
deriving DecidableEq

/-- Non-marker row handling of `parseCSVData` (part_001), dispatching on
the current section.  Summary labels are matched with
`cells[0].toLowerCase().includes(...)` (`Char.toLower` models the ASCII
part of `toLowerCase`); location and company rows are pushed only with a
truthy label, a positive count and the list below its cap. -/
def applyRow (showLocations showCompanies : Nat) (sec : SectionState)
    (cells : List (List Char)) (data : Report) : Report :=
  if sec = SectionState.summary ∧ 2 ≤ cells.length then
    let label := (cells.getD 0 []).map Char.toLower
    if includes label "total active jobs".data then
      { data with summary :=
          { data.summary with
              totalJobs := some (parseIntOr0 (removeAll ',' (cells.getD 1 []))) } }
    else if includes label "bay area jobs".data then
      { data with summary :=
          { data.summary with
              bayAreaJobs := some (parseIntOr0 (removeAll ',' (cells.getD 1 []))) } }
    else if includes label "last updated".data then
      { data with lastUpdated := some (cells.getD 1 []) }
    else data
  else if sec = SectionState.locations ∧ 2 ≤ cells.length then
    let location := cells.getD 0 []
    let count := parseIntOr0 (removeAll ',' (cells.getD 1 []))
    if location ≠ [] ∧ 0 < count ∧ data.locations.length < showLocations then
      { data with locations := data.locations ++ [⟨location, count⟩] }
    else data
  else if sec = SectionState.companies ∧ 2 ≤ cells.length then
    let company := cells.getD 0 []
    let count := parseIntOr0 (removeAll ',' (cells.getD 1 []))
    if company ≠ [] ∧ 0 < count ∧ data.companies.length < showCompanies then
      { data with companies := data.companies ++ [⟨company, count⟩] }
    else data
  else data

/-- The `for` loop of `parseCSVData` (part_001).  Empty (after trim)
lines are skipped; a sentinel header sets the section, the three data
sentinels additionally skipping the following header row (`i++` then
`continue`, matched here one element deeper so the recursion stays
structural); other rows go through `applyRow`. -/
def processLines (showLocations showCompanies : Nat) :
    List (List Char) → SectionState → Report → Report
  | [], _, data => data
  | rawLine :: rest, currentSection, data =>
    let line := trimChars rawLine
    if line = [] then processLines showLocations showCompanies rest currentSection data
    else
      let cells := parseCSVLineChars line
      if includes line "MARITIME JOB MARKET SUMMARY".data then
        processLines showLocations showCompanies rest SectionState.summary data
      else if includes line "JOB DISTRIBUTION BY LOCATION".data then
        match rest with
        | [] => data
        | _ :: rest2 => processLines showLocations showCompanies rest2 SectionState.locations data
      else if includes line "TOP SKILLS".data then
        match rest with
        | [] => data
        | _ :: rest2 => processLines showLocations showCompanies rest2 SectionState.skills data
      else if includes line "HIRING COMPANIES".data then
        match rest with
        | [] => data
        | _ :: rest2 => processLines showLocations showCompanies rest2 SectionState.companies data
      else
        processLines showLocations showCompanies rest currentSection
          (applyRow showLocations showCompanies currentSection cells data)

/-- `parseCSVData` (part_001) on character lists. -/
def parseCSVDataChars (showLocations showCompanies : Nat) (csvText : List Char) : Report :=
  processLines showLocations showCompanies (splitOnNewline csvText) SectionState.nullSec {}

/-- `parseCSVData` (part_001) at the `String` level. -/
def parseCSVData (showLocations showCompanies : Nat) (csvText : String) : Report :=
  parseCSVDataChars showLocations showCompanies csvText.data

end Part001

/-- CSV payload exercising part_001's `showLocations` cap: the location
sentinel, the section's header row (skipped), then seven qualifying
location rows. -/
def part001LocationsCSV : List Char :=
  "JOB DISTRIBUTION BY LOCATION\nLocation,Count\nL1,1\nL2,2\nL3,3\nL4,4\nL5,5\nL6,6\nL7,7".data

/-! ## Freshness cache (`getCachedData` / `cacheData`)

The three widget variants share this code (up to the storage key and the
log lines).  The localStorage slot is modelled as `Option (StoredBlob α)`
(`none` = no item stored under the key); the text found in the slot is
classified by how `JSON.parse` treats it. -/

/-- Classification of the text held in the cache storage slot.
`wellFormed d t` is the serialization of `{data: d, timestamp: t}`;
`corrupt` is text `JSON.parse` throws on; `wrongShape` is valid JSON
without a numeric `timestamp` member, which makes the age computation
NaN. -/
inductive StoredBlob (α : Type) where
  | wellFormed : α → Int → StoredBlob α
  | corrupt : StoredBlob α
  | wrongShape : StoredBlob α
deriving DecidableEq

/-- A parsed cache object `{data, timestamp}` (epoch milliseconds). -/
structure CacheEntry (α : Type) where
  data : α
  timestamp : Int
deriving DecidableEq

/-- `const oneHour = 60 * 60 * 1000` — the cache TTL in milliseconds. -/
def oneHour : Int := 60 * 60 * 1000

/-- `getCachedData`: read the slot (absent → null); a `JSON.parse` failure
is caught and yields null with the slot left untouched; a parsed entry
younger than one hour is returned with the slot kept; otherwise — stale
entry, or NaN age from a shape mismatch (`NaN < oneHour` is false) — the
slot is removed and null returned.  The result pairs the returned value
with the slot state after the call. -/
def getCachedData {α : Type} (slot : Option (StoredBlob α)) (now : Int) :
    Option (CacheEntry α) × Option (StoredBlob α) :=
  match slot with
  | none => (none, none)
  | some .corrupt => (none, some .corrupt)
  | some .wrongShape => (none, none)
  | some (.wellFormed d t) =>
    if now - t < oneHour then (some ⟨d, t⟩, some (.wellFormed d t))
    else (none, none)

/-- Outcome of `localStorage.setItem` on the cache slot: when storage is
available the slot is replaced; otherwise (quota exceeded, storage
disabled, serialization failure) it throws and the slot is unchanged. -/
def setItem {α : Type} (avail : Bool) (entry : StoredBlob α) :
    Except Unit (Option (StoredBlob α)) :=
  if avail then .ok (some entry) else .error ()

/-- `cacheData`: build `{data, timestamp: now}`, attempt `setItem`, and
swallow any storage error (the `catch` only logs).  Returns the slot
state after the call; the return type carries no error, so no failure
ever propagates to the caller. -/
def cacheData {α : Type} (avail : Bool) (slot : Option (StoredBlob α))
    (d : α) (now : Int) : Option (StoredBlob α) :=
  match setItem avail (StoredBlob.wellFormed d now) with
  | .ok newSlot => newSlot
  | .error _ => slot

/-! ## Lemmas about the tokenizer -/

lemma mem_of_mem_trimChars {c : Char} {l : List Char} (h : c ∈ trimChars l) : c ∈ l := by
  unfold trimChars at h
  rw [List.mem_reverse] at h
  have h2 : c ∈ (l.dropWhile isWS).reverse :=
    List.Sublist.mem h (List.dropWhile_sublist isWS)
  rw [List.mem_reverse] at h2
  exact List.Sublist.mem h2 (List.dropWhile_sublist isWS)

lemma head?_dropWhile_false (p : Char → Bool) :
    ∀ (l : List Char) {a : Char}, (l.dropWhile p).head? = some a → p a = false := by
  intro l
  induction l with
  | nil => intro a h; simp at h
  | cons c t ih =>
    intro a h
    rw [List.dropWhile_cons] at h
    split at h
    · exact ih h
    · next hc =>
      simp only [List.head?_cons, Option.some.injEq] at h
      subst h
      exact Bool.eq_false_iff.mpr hc

lemma dropWhile_eq_self_of_head (p : Char → Bool) (l : List Char)
    (h : ∀ a, l.head? = some a → p a = false) : l.dropWhile p = l := by
  cases l with
  | nil => rfl
  | cons c t => rw [List.dropWhile_cons]; simp [h c rfl]

lemma dropWhile_dropWhile (p : Char → Bool) (l : List Char) :
    (l.dropWhile p).dropWhile p = l.dropWhile p :=
  dropWhile_eq_self_of_head p _ fun _ h => head?_dropWhile_false p l h

lemma getLast?_dropWhile (p : Char → Bool) :
    ∀ (l : List Char), l.dropWhile p ≠ [] → (l.dropWhile p).getLast? = l.getLast? := by
  intro l
  induction l with
  | nil => intro h; simp at h
  | cons c t ih =>
    intro h
    rw [List.dropWhile_cons] at h ⊢
    by_cases hc : p c = true
    · rw [if_pos hc] at h ⊢
      cases t with
      | nil => simp at h
      | cons b tb => rw [List.getLast?_cons_cons]; exact ih h
    · rw [if_neg hc]

lemma trimChars_idem (l : List Char) : trimChars (trimChars l) = trimChars l := by
  have key : ∀ m : List Char,
      ((m.dropWhile isWS).reverse.dropWhile isWS).reverse.dropWhile isWS =
        ((m.dropWhile isWS).reverse.dropWhile isWS).reverse := by
    intro m
    apply dropWhile_eq_self_of_head
    intro a ha
    rw [List.head?_reverse] at ha
    have hne : (m.dropWhile isWS).reverse.dropWhile isWS ≠ [] := by
      intro h0; rw [h0] at ha; simp at ha
    rw [getLast?_dropWhile isWS _ hne, List.getLast?_reverse] at ha
    exact head?_dropWhile_false isWS m ha
  unfold trimChars
  rw [key l, List.reverse_reverse, dropWhile_dropWhile]

lemma parseCSVLineAux_ne_nil : ∀ (l cur : List Char) (inQ : Bool),
    parseCSVLineAux l cur inQ ≠ [] := by
  intro l
  induction l with
  | nil => intro cur inQ; unfold parseCSVLineAux; simp
  | cons c rest ih =>
    intro cur inQ
    unfold parseCSVLineAux
    split
    · exact ih cur (!inQ)
    · split
      · simp
      · exact ih (cur ++ [c]) inQ

lemma parseCSVLineAux_cells_trim :
    ∀ (l cur : List Char) (inQ : Bool) (cell : List Char),
      cell ∈ parseCSVLineAux l cur inQ → ∃ x, cell = trimChars x := by
  intro l
  induction l with
  | nil =>
    intro cur inQ cell h
    unfold parseCSVLineAux at h
    simp only [List.mem_singleton] at h
    exact ⟨cur, h⟩
  | cons c rest ih =>
    intro cur inQ cell h
    unfold parseCSVLineAux at h
    split at h
    · exact ih cur (!inQ) cell h
    · split at h
      · rcases List.mem_cons.mp h with h1 | h2
        · exact ⟨cur, h1⟩
        · exact ih [] inQ cell h2
      · exact ih (cur ++ [c]) inQ cell h

lemma parseCSVLineAux_no_quote :
    ∀ (l cur : List Char) (inQ : Bool), '"' ∉ cur →
      ∀ cell ∈ parseCSVLineAux l cur inQ, '"' ∉ cell := by
  intro l
  induction l with
  | nil =>
    intro cur inQ hcur cell hc hq
    unfold parseCSVLineAux at hc
    simp only [List.mem_singleton] at hc
    exact hcur (mem_of_mem_trimChars (hc ▸ hq))
  | cons c rest ih =>
    intro cur inQ hcur cell hc hq
    unfold parseCSVLineAux at hc
    split at hc
    · exact ih cur (!inQ) hcur cell hc hq
    · next hne =>
      split at hc
      · rcases List.mem_cons.mp hc with h1 | h2
        · exact hcur (mem_of_mem_trimChars (h1 ▸ hq))
        · exact ih [] inQ (by simp) cell h2 hq
      · refine ih (cur ++ [c]) inQ ?_ cell hc hq
        intro hmem
        rcases List.mem_append.mp hmem with h1 | h2
        · exact hcur h1
        · simp only [List.mem_singleton] at h2
          exact hne (h2 ▸ rfl)

/-! ## Lemmas about the fixed-position extractor (part_000) -/

namespace Part000

/-- A city entry as admitted by the row-18–27 filter. -/
def GoodCity (e : CityEntry) : Prop :=
  e.city ≠ [] ∧ e.city ≠ "City".data ∧ 0 < e.count

/-- A company entry as admitted by the row-67–76 filter. -/
def GoodCompany (e : CompanyEntry) : Prop :=
  e.company ≠ [] ∧ e.company ≠ "Company Name".data ∧ 0 < e.count

/-- A job-title entry as admitted by the row-53–62 filter (label only). -/
def GoodJobTitle (e : JobTitleEntry) : Prop :=
  e.title ≠ [] ∧ e.title ≠ "Job Title".data

/-- All ranked-list entries of a report pass their respective filters. -/
def GoodEntries (r : Report) : Prop :=
  (∀ e ∈ r.cities, GoodCity e) ∧ (∀ e ∈ r.companies, GoodCompany e) ∧
    (∀ e ∈ r.jobTitles, GoodJobTitle e)

lemma rowTotal_lists (n : Nat) (cells : List (List Char)) (d : Report) :
    (rowTotal n cells d).cities = d.cities ∧
      (rowTotal n cells d).companies = d.companies ∧
      (rowTotal n cells d).jobTitles = d.jobTitles := by
  simp only [rowTotal]; split_ifs <;> simp

lemma rowTotal_cal (n : Nat) (cells : List (List Char)) (d : Report) :
    (rowTotal n cells d).summary.californiaJobs = d.summary.californiaJobs := by
  simp only [rowTotal]; split_ifs <;> simp

lemma rowCalifornia_lists (n : Nat) (cells : List (List Char)) (d : Report) :
    (rowCalifornia n cells d).cities = d.cities ∧
      (rowCalifornia n cells d).companies = d.companies ∧
      (rowCalifornia n cells d).jobTitles = d.jobTitles := by
  simp only [rowCalifornia]; split_ifs <;> simp

lemma rowCities_others (n : Nat) (cells : List (List Char)) (d : Report) :
    (rowCities n cells d).summary = d.summary ∧
      (rowCities n cells d).companies = d.companies ∧
      (rowCities n cells d).jobTitles = d.jobTitles := by
  simp only [rowCities]; split_ifs <;> simp

lemma rowJobTitles_others (n : Nat) (cells : List (List Char)) (d : Report) :
    (rowJobTitles n cells d).summary = d.summary ∧
      (rowJobTitles n cells d).cities = d.cities ∧
      (rowJobTitles n cells d).companies = d.companies := by
  simp only [rowJobTitles]; split_ifs <;> simp

lemma rowCompanies_others (n : Nat) (cells : List (List Char)) (d : Report) :
    (rowCompanies n cells d).summary = d.summary ∧
      (rowCompanies n cells d).cities = d.cities ∧
      (rowCompanies n cells d).jobTitles = d.jobTitles := by
  simp only [rowCompanies]; split_ifs <;> simp

lemma rowCities_good (n : Nat) (cells : List (List Char)) (d : Report)
    (h : ∀ e ∈ d.cities, GoodCity e) : ∀ e ∈ (rowCities n cells d).cities, GoodCity e := by
  simp only [rowCities]
  split_ifs with h1 h2
  · intro e he
    rcases List.mem_append.mp he with ha | hb
    · exact h e ha
    · simp only [List.mem_singleton] at hb
      subst hb
      exact ⟨h2.1, h2.2.1, h2.2.2⟩
  · exact h
  · exact h

lemma rowCompanies_good (n : Nat) (cells : List (List Char)) (d : Report)
    (h : ∀ e ∈ d.companies, GoodCompany e) :
    ∀ e ∈ (rowCompanies n cells d).companies, GoodCompany e := by
  simp only [rowCompanies]
  split_ifs with h1 h2
  · intro e he
    rcases List.mem_append.mp he with ha | hb
    · exact h e ha
    · simp only [List.mem_singleton] at hb
      subst hb
      exact ⟨h2.1, h2.2.1, h2.2.2⟩
  · exact h
  · exact h

lemma rowJobTitles_good (n : Nat) (cells : List (List Char)) (d : Report)
    (h : ∀ e ∈ d.jobTitles, GoodJobTitle e) :
    ∀ e ∈ (rowJobTitles n cells d).jobTitles, GoodJobTitle e := by
  simp only [rowJobTitles]
  split_ifs with h1 h2 h3 <;>
    first
      | exact h
      | (intro e he
         rcases List.mem_append.mp he with ha | hb
         · exact h e ha
         · simp only [List.mem_singleton] at hb
           subst hb
           exact ⟨h2.1, h2.2⟩)

lemma processRow_good (n : Nat) (line : List Char) (d : Report) (h : GoodEntries d) :
    GoodEntries (processRow n line d) := by
  simp only [processRow]
  split
  · exact h
  · set cells := parseCSVLineChars (trimChars line) with hc
    obtain ⟨hcity, hcomp, hjob⟩ := h
    have s1 : GoodEntries (rowTotal n cells d) := by
      obtain ⟨e1, e2, e3⟩ := rowTotal_lists n cells d
      exact ⟨e1 ▸ hcity, e2 ▸ hcomp, e3 ▸ hjob⟩
    have s2 : GoodEntries (rowCalifornia n cells (rowTotal n cells d)) := by
      obtain ⟨e1, e2, e3⟩ := rowCalifornia_lists n cells (rowTotal n cells d)
      exact ⟨e1 ▸ s1.1, e2 ▸ s1.2.1, e3 ▸ s1.2.2⟩
    have s3 : GoodEntries (rowCities n cells (rowCalifornia n cells (rowTotal n cells d))) := by
      obtain ⟨-, e2, e3⟩ := rowCities_others n cells (rowCalifornia n cells (rowTotal n cells d))
      exact ⟨rowCities_good n cells _ s2.1, e2 ▸ s2.2.1, e3 ▸ s2.2.2⟩
    have s4 : GoodEntries (rowJobTitles n cells
        (rowCities n cells (rowCalifornia n cells (rowTotal n cells d)))) := by
      obtain ⟨-, e2, e3⟩ := rowJobTitles_others n cells
        (rowCities n cells (rowCalifornia n cells (rowTotal n cells d)))
      exact ⟨e2 ▸ s3.1, e3 ▸ s3.2.1, rowJobTitles_good n cells _ s3.2.2⟩
    obtain ⟨-, e2, e3⟩ := rowCompanies_others n cells (rowJobTitles n cells
      (rowCities n cells (rowCalifornia n cells (rowTotal n cells d))))
    exact ⟨e2 ▸ s4.1, rowCompanies_good n cells _ s4.2.1, e3 ▸ s4.2.2⟩

lemma parseCSVDataChars_good (csvText : List Char) :
    GoodEntries (parseCSVDataChars csvText) := by
  unfold parseCSVDataChars
  suffices h : ∀ (L : List (Nat × List Char)) (d : Report), GoodEntries d →
      GoodEntries (L.foldl (fun data p => processRow (p.1 + 1) p.2 data) d) by
    exact h _ _ ⟨by simp, by simp, by simp⟩
  intro L
  induction L with
  | nil => intro d h; exact h
  | cons p L ih => intro d h; exact ih _ (processRow_good _ _ _ h)

lemma rowTotal_id (n : Nat) (cells : List (List Char)) (d : Report) (h : n ≠ 3) :
    rowTotal n cells d = d := by
  simp only [rowTotal]
  rw [if_neg]
  rintro ⟨h3, -⟩
  exact h h3

lemma rowCalifornia_id (n : Nat) (cells : List (List Char)) (d : Report) (h : n ≠ 10) :
    rowCalifornia n cells d = d := by
  simp only [rowCalifornia]
  rw [if_neg]
  rintro ⟨h10, -⟩
  exact h h10

lemma rowCities_id (n : Nat) (cells : List (List Char)) (d : Report) (h : n < 18) :
    rowCities n cells d = d := by
  simp only [rowCities]
  rw [if_neg]
  rintro ⟨h18, -⟩
  omega

lemma rowJobTitles_id (n : Nat) (cells : List (List Char)) (d : Report) (h : n < 53) :
    rowJobTitles n cells d = d := by
  simp only [rowJobTitles]
  rw [if_neg]
  rintro ⟨h53, -⟩
  omega

lemma rowCompanies_id (n : Nat) (cells : List (List Char)) (d : Report) (h : n < 67) :
    rowCompanies n cells d = d := by
  simp only [rowCompanies]
  rw [if_neg]
  rintro ⟨h67, -⟩
  omega

lemma processRow_id_of_small (n : Nat) (line : List Char) (d : Report)
    (h3 : n ≠ 3) (h10 : n ≠ 10) (h18 : n < 18) : processRow n line d = d := by
  simp only [processRow]
  split
  · rfl
  · rw [rowTotal_id _ _ _ h3, rowCalifornia_id _ _ _ h10, rowCities_id _ _ _ h18,
      rowJobTitles_id _ _ _ (by omega), rowCompanies_id _ _ _ (by omega)]

lemma processRow_cal_id (n : Nat) (line : List Char) (d : Report) (h : n ≠ 10) :
    (processRow n line d).summary.californiaJobs = d.summary.californiaJobs := by
  simp only [processRow]
  split
  · rfl
  · set cells := parseCSVLineChars (trimChars line) with hc
    rw [(rowCompanies_others n cells _).1, (rowJobTitles_others n cells _).1,
      (rowCities_others n cells _).1, rowCalifornia_id _ _ _ h, rowTotal_cal]

lemma foldl_cal_eq : ∀ (L : List (List Char)) (k : Nat) (d : Report), k + L.length ≤ 9 →
    ((L.enumFrom k).foldl (fun data p => processRow (p.1 + 1) p.2 data) d).summary.californiaJobs
      = d.summary.californiaJobs := by
  intro L
  induction L with
  | nil => intro k d _; simp [List.enumFrom]
  | cons a L ih =>
    intro k d h
    rw [List.enumFrom_cons, List.foldl_cons]
    rw [ih (k + 1) _ (by simp only [List.length_cons] at h; omega)]
    exact processRow_cal_id (k + 1) a d (by simp only [List.length_cons] at h; omega)

end Part000

/-! ## Lemmas about the marker-mode extractor -/

lemma processLine_topJobs_le (cap : Nat) (st : WidgetV3.SectionState × WidgetV3.Report)
    (line : List Char) (h : st.2.topJobs.length ≤ cap) :
    (WidgetV3.processLine cap st line).2.topJobs.length ≤ cap := by
  simp only [WidgetV3.processLine]
  split_ifs <;> (simp_all; try omega)

lemma foldl_topJobs_le (cap : Nat) :
    ∀ (L : List (List Char)) (st : WidgetV3.SectionState × WidgetV3.Report),
      st.2.topJobs.length ≤ cap →
      (L.foldl (WidgetV3.processLine cap) st).2.topJobs.length ≤ cap := by
  intro L
  induction L with
  | nil => intro st h; exact h
  | cons a L ih => intro st h; exact ih _ (processLine_topJobs_le cap st a h)

lemma processLine_topCities_le (cap : Nat) (st : WidgetV3.SectionState × WidgetV3.Report)
    (line : List Char) (h : st.2.topCities.length ≤ cap) :
    (WidgetV3.processLine cap st line).2.topCities.length ≤ cap := by
  simp only [WidgetV3.processLine]
  split_ifs <;> (simp_all; try omega)

lemma foldl_topCities_le (cap : Nat) :
    ∀ (L : List (List Char)) (st : WidgetV3.SectionState × WidgetV3.Report),
      st.2.topCities.length ≤ cap →
      (L.foldl (WidgetV3.processLine cap) st).2.topCities.length ≤ cap := by
  intro L
  induction L with
  | nil => intro st h; exact h
  | cons a L ih => intro st h; exact ih _ (processLine_topCities_le cap st a h)

lemma processLine_topCompanies_le (cap : Nat) (st : WidgetV3.SectionState × WidgetV3.Report)
    (line : List Char) (h : st.2.topCompanies.length ≤ cap) :
    (WidgetV3.processLine cap st line).2.topCompanies.length ≤ cap := by
  simp only [WidgetV3.processLine]
  split_ifs <;> (simp_all; try omega)

lemma foldl_topCompanies_le (cap : Nat) :
    ∀ (L : List (List Char)) (st : WidgetV3.SectionState × WidgetV3.Report),
      st.2.topCompanies.length ≤ cap →
      (L.foldl (WidgetV3.processLine cap) st).2.topCompanies.length ≤ cap := by
  intro L
  induction L with
  | nil => intro st h; exact h
  | cons a L ih => intro st h; exact ih _ (processLine_topCompanies_le cap st a h)

lemma applyRow_caps (sL sC : Nat) (sec : Part001.SectionState) (cells : List (List Char))
    (data : Part001.Report)
    (h1 : data.locations.length ≤ sL) (h2 : data.companies.length ≤ sC) :
    (Part001.applyRow sL sC sec cells data).locations.length ≤ sL ∧
      (Part001.applyRow sL sC sec cells data).companies.length ≤ sC := by
  simp only [Part001.applyRow]
  split_ifs <;> (constructor <;> simp_all <;> try omega)

lemma processLines_caps (sL sC : Nat) :
    ∀ (n : Nat) (L : List (List Char)), L.length ≤ n →
      ∀ (sec : Part001.SectionState) (data : Part001.Report),
        data.locations.length ≤ sL → data.companies.length ≤ sC →
        (Part001.processLines sL sC L sec data).locations.length ≤ sL ∧
          (Part001.processLines sL sC L sec data).companies.length ≤ sC := by
  intro n
  induction n with
  | zero =>
    intro L hL sec data h1 h2
    obtain rfl : L = [] := List.length_eq_zero.mp (Nat.le_zero.mp hL)
    exact ⟨h1, h2⟩
  | succ n ih =>
    intro L hL sec data h1 h2
    cases L with
    | nil => exact ⟨h1, h2⟩
    | cons rawLine rest =>
      simp only [List.length_cons] at hL
      have hr : rest.length ≤ n := by omega
      rw [Part001.processLines.eq_def]
      dsimp only
      split_ifs
      · exact ih rest hr sec data h1 h2
      · exact ih rest hr Part001.SectionState.summary data h1 h2
      · cases rest with
        | nil => exact ⟨h1, h2⟩
        | cons x rest2 =>
          exact ih rest2 (by simp only [List.length_cons] at hr; omega)
            Part001.SectionState.locations data h1 h2
      · cases rest with
        | nil => exact ⟨h1, h2⟩
        | cons x rest2 =>
          exact ih rest2 (by simp only [List.length_cons] at hr; omega)
            Part001.SectionState.skills data h1 h2
      · cases rest with
        | nil => exact ⟨h1, h2⟩
        | cons x rest2 =>
          exact ih rest2 (by simp only [List.length_cons] at hr; omega)
            Part001.SectionState.companies data h1 h2
      · obtain ⟨g1, g2⟩ :=
          applyRow_caps sL sC sec (parseCSVLineChars (trimChars rawLine)) data h1 h2
        exact ih rest hr sec _ g1 g2

lemma parseCSVLineAux_inQuotes_accumulates :
    ∀ (rest cur : List Char), '"' ∉ rest →
      parseCSVLineAux rest cur true = [trimChars (cur ++ rest)] := by
  intro rest
  induction rest with
  | nil => intro cur h; unfold parseCSVLineAux; simp
  | cons c r ih =>
    intro cur h
    unfold parseCSVLineAux
    rw [if_neg, if_neg]
    · rw [ih (cur ++ [c]) (fun hm => h (List.mem_cons_of_mem _ hm))]
      simp
    · rintro ⟨-, hF⟩
      simp at hF
    · intro hc
      exact h (hc ▸ List.mem_cons_self c r)

/-! ## Claim theorems -/

/-- C1 (counterexample): the claim that every summary field is a
non-negative integer — never undefined — and that missing rows yield the
zero default fails on the code: on the empty payload `totalJobs` is left
unset (JavaScript `undefined`), not `0`; and a `-5` cell in row 3 column C
produces the negative value `-5`. -/
theorem parseCSVData_summary_default_cex :
    (Part000.parseCSVData "").summary.totalJobs = none ∧
    (Part000.parseCSVData "").summary.totalJobs ≠ some 0 ∧
    (Part000.parseCSVData "\n\nx,y,-5").summary.totalJobs = some (-5) :=
  ⟨by decide, by decide, by decide⟩

/-- C1 (amended): for every CSV input, `parseCSVData` terminates and
returns a `Report` without error; a payload with fewer lines than a
referenced row leaves the corresponding summary fields unset (absent,
not zero): with at most 2 lines the whole report is the initial value,
and with at most 9 lines `californiaJobs` (row 10) stays unset. -/
theorem parseCSVData_short_payload_absent :
    (∀ csvText : List Char, (splitOnNewline csvText).length ≤ 2 →
        Part000.parseCSVDataChars csvText = {}) ∧
    (∀ csvText : List Char, (splitOnNewline csvText).length ≤ 9 →
        (Part000.parseCSVDataChars csvText).summary.californiaJobs = none) := by
  constructor
  · intro csv h
    unfold Part000.parseCSVDataChars
    rcases hL : splitOnNewline csv with - | ⟨a, - | ⟨b, - | ⟨c, t⟩⟩⟩
    · simp [List.enum]
    · simp only [List.enum_cons, List.enumFrom_nil, List.foldl_cons, List.foldl_nil]
      exact Part000.processRow_id_of_small _ _ _ (by omega) (by omega) (by omega)
    · simp only [List.enum_cons, List.enumFrom_cons, List.enumFrom_nil, List.foldl_cons,
        List.foldl_nil]
      rw [Part000.processRow_id_of_small _ _ _ (by omega) (by omega) (by omega),
        Part000.processRow_id_of_small _ _ _ (by omega) (by omega) (by omega)]
    · rw [hL] at h
      simp at h
  · intro csv h
    unfold Part000.parseCSVDataChars
    have he : (splitOnNewline csv).enum = List.enumFrom 0 (splitOnNewline csv) := rfl
    rw [he, Part000.foldl_cal_eq _ 0 _ (by omega)]

/-- C1 (witness): the amended theorem applied at concrete short payloads. -/
theorem parseCSVData_short_payload_absent_witness :
    Part000.parseCSVDataChars "a,b".data = {} ∧
    (Part000.parseCSVDataChars "x\ny\nz".data).summary.californiaJobs = none :=
  ⟨parseCSVData_short_payload_absent.1 _ (by decide),
   parseCSVData_short_payload_absent.2 _ (by decide)⟩

/-- C2 (counterexample): with corrupted (non-JSON) text in the slot, the
next read returns absent without throwing, but the claim that it clears
the storage slot is false: the `catch` branch returns `null` without
calling `removeItem`, so the corrupt text stays in the slot. -/
theorem getCachedData_corrupt_slot_kept_cex :
    getCachedData (α := Nat) (some StoredBlob.corrupt) 0 =
      (none, some StoredBlob.corrupt) ∧
    (getCachedData (α := Nat) (some StoredBlob.corrupt) 0).2 ≠ none :=
  ⟨rfl, by decide⟩

/-- C2 (amended): if the cache slot holds arbitrary non-JSON (corrupted)
text, the next `getCachedData` returns absent and does not throw, but
leaves the corrupt slot in place (it is only replaced by a later write). -/
theorem getCachedData_corrupt_silent {α : Type} :
    ∀ now : Int,
      getCachedData (α := α) (some StoredBlob.corrupt) now =
        (none, some StoredBlob.corrupt) :=
  fun _ => rfl

/-- C3 (counterexample): the claim that every ranked-list entry has a
positive count fails: a row-53 job-title line whose count cell is the
non-numeric `n/a` is still pushed, with `openings = 0`. -/
theorem parseCSVData_zero_count_entry_cex :
    (Part000.parseCSVDataChars
        (List.replicate 52 '\n' ++ "Port Engineer,n/a".data)).jobTitles =
      [⟨"Port Engineer".data, 0, []⟩] ∧
    ¬ (0 : Int) > 0 :=
  ⟨by decide, by decide⟩

/-- C3 (amended): for every CSV input, every city and company entry has a
non-empty, non-placeholder label (`City` / `Company Name`) and a positive
count; every job-title entry has a non-empty label distinct from the
placeholder `Job Title`, but its count is not filtered and may be zero. -/
theorem parseCSVData_entry_filters :
    ∀ csvText : List Char,
      (∀ e ∈ (Part000.parseCSVDataChars csvText).cities,
          e.city ≠ [] ∧ e.city ≠ "City".data ∧ 0 < e.count) ∧
      (∀ e ∈ (Part000.parseCSVDataChars csvText).companies,
          e.company ≠ [] ∧ e.company ≠ "Company Name".data ∧ 0 < e.count) ∧
      (∀ e ∈ (Part000.parseCSVDataChars csvText).jobTitles,
          e.title ≠ [] ∧ e.title ≠ "Job Title".data) :=
  fun csvText => Part000.parseCSVDataChars_good csvText

/-- C3 (witness): the amended theorem applied to a payload whose row 18
is `Oakland,5`, producing the single city entry `⟨Oakland, 5⟩`. -/
theorem parseCSVData_entry_filters_witness :
    "Oakland".data ≠ ([] : List Char) ∧
      "Oakland".data ≠ "City".data ∧ (0 : Int) < 5 :=
  (parseCSVData_entry_filters (List.replicate 17 '\n' ++ "Oakland,5".data)).1
    ⟨"Oakland".data, 5⟩ (by decide)

/-- C4: numeric coercion strips thousands-separator commas and quote
characters before parsing and coerces non-numeric or empty cells to 0;
on the fixed-position CSV with line 3 column C = `"1,234"` and line 10
column B = `567`, extraction yields `totalJobs = 1234` and
`californiaJobs = 567`. -/
theorem parseCSVData_numeric_coercion :
    (Part000.parseCSVData
        "Report\n\nMetric,x,\"1,234\"\n\n\n\n\n\n\nCalifornia,567").summary.totalJobs =
      some 1234 ∧
    (Part000.parseCSVData
        "Report\n\nMetric,x,\"1,234\"\n\n\n\n\n\n\nCalifornia,567").summary.californiaJobs =
      some 567 ∧
    removeAll ',' "1,234".data = "1234".data ∧
    parseIntOr0 "n/a".data = 0 ∧
    parseIntOr0 [] = 0 :=
  ⟨by decide, by decide, by decide, by decide, by decide⟩

/-- C5: `getCachedData` returns the stored entry exactly when
`now - timestamp < oneHour`, and otherwise returns absent with the slot
removed; in particular an entry written at `T` is returned at
`T + oneHour - 1` and is absent (slot removed) at `T + oneHour + 1`;
an empty slot reads as absent. -/
theorem getCachedData_ttl_boundary {α : Type} :
    ∀ (d : α) (T now : Int),
      getCachedData (some (StoredBlob.wellFormed d T)) now =
        (if now - T < oneHour then
          (some ⟨d, T⟩, some (StoredBlob.wellFormed d T))
        else (none, none)) ∧
      getCachedData (some (StoredBlob.wellFormed d T)) (T + oneHour - 1) =
        (some ⟨d, T⟩, some (StoredBlob.wellFormed d T)) ∧
      getCachedData (some (StoredBlob.wellFormed d T)) (T + oneHour + 1) =
        (none, none) ∧
      getCachedData (none : Option (StoredBlob α)) now = (none, none) := by
  intro d T now
  refine ⟨rfl, ?_, ?_, rfl⟩
  · simp only [getCachedData]
    rw [if_pos (by omega)]
  · simp only [getCachedData]
    rw [if_neg (by omega)]

/-- C6: the tokenizer toggles the inside-quotes state on `"`, treats `,`
as a delimiter only outside quotes (inside quotes the comma accumulates
into the cell), and tokenizes `"Acme, Inc."` to the single cell
`Acme, Inc.` with the comma preserved and the quotes stripped. -/
theorem parseCSVLine_quoted_field :
    (∀ (rest cur : List Char) (inQ : Bool),
        parseCSVLineAux ('"' :: rest) cur inQ = parseCSVLineAux rest cur (!inQ)) ∧
    (∀ rest cur : List Char,
        parseCSVLineAux (',' :: rest) cur false =
          trimChars cur :: parseCSVLineAux rest [] false) ∧
    (∀ rest cur : List Char,
        parseCSVLineAux (',' :: rest) cur true =
          parseCSVLineAux rest (cur ++ [',']) true) ∧
    parseCSVLine "\"Acme, Inc.\"" = ["Acme, Inc."] := by
  refine ⟨?_, ?_, ?_, by decide⟩
  · intro rest cur inQ
    conv_lhs => rw [parseCSVLineAux]
    rw [if_pos rfl]
  · intro rest cur
    conv_lhs => rw [parseCSVLineAux]
    rw [if_neg (by decide), if_pos ⟨rfl, rfl⟩]
  · intro rest cur
    conv_lhs => rw [parseCSVLineAux]
    rw [if_neg (by decide), if_neg (by simp)]

/-- C7: every ranked list of the extraction result is capped at its
configured maximum — the marker-mode widget's `topCities`, `topJobs` and
`topCompanies` at `showTopItems`, and part_001's `locations` at
`showLocations` and `companies` at `showCompanies` — with later
qualifying rows beyond the cap ignored and source order preserved: the
job-title section row `Top Jobs,Port Engineer,12,$80k-$100k` repeated 12
times under a 10-entry cap yields exactly 10 identical entries with the
given label, count 12 and pay range, and seven qualifying location rows
under a 5-entry cap yield exactly the first five, in source order. -/
theorem parseCSVData_ranked_list_caps :
    (∀ (showTopItems : Nat) (csvText : List Char),
        (WidgetV3.parseCSVDataChars showTopItems csvText).topCities.length ≤ showTopItems ∧
        (WidgetV3.parseCSVDataChars showTopItems csvText).topJobs.length ≤ showTopItems ∧
        (WidgetV3.parseCSVDataChars showTopItems csvText).topCompanies.length ≤
          showTopItems) ∧
    (∀ (showLocations showCompanies : Nat) (csvText : List Char),
        (Part001.parseCSVDataChars showLocations showCompanies csvText).locations.length ≤
          showLocations ∧
        (Part001.parseCSVDataChars showLocations showCompanies csvText).companies.length ≤
          showCompanies) ∧
    (WidgetV3.parseCSVDataChars 10 scenarioTopJobsCSV).topJobs =
      List.replicate 10 ⟨some "Port Engineer".data, 12, "$80k-$100k".data⟩ ∧
    (Part001.parseCSVDataChars 5 5 part001LocationsCSV).locations =
      [⟨"L1".data, 1⟩, ⟨"L2".data, 2⟩, ⟨"L3".data, 3⟩, ⟨"L4".data, 4⟩, ⟨"L5".data, 5⟩] := by
  refine ⟨?_, ?_, by decide, by decide⟩
  · intro cap csv
    unfold WidgetV3.parseCSVDataChars
    exact ⟨foldl_topCities_le cap _ _ (by simp), foldl_topJobs_le cap _ _ (by simp),
      foldl_topCompanies_le cap _ _ (by simp)⟩
  · intro sL sC csv
    unfold Part001.parseCSVDataChars
    exact processLines_caps sL sC (splitOnNewline csv).length _ le_rfl _ _
      (by simp) (by simp)

/-- C8: `cacheData` never propagates a storage error: when `setItem`
throws (storage unavailable), the error is swallowed and the slot is left
as it was; when storage works, the new entry replaces the slot. -/
theorem cacheData_swallows_errors {α : Type} :
    ∀ (slot : Option (StoredBlob α)) (d : α) (now : Int),
      (setItem false (StoredBlob.wellFormed d now) :
          Except Unit (Option (StoredBlob α))) = Except.error () ∧
      cacheData false slot d now = slot ∧
      cacheData true slot d now = some (StoredBlob.wellFormed d now) :=
  fun _ _ _ => ⟨rfl, rfl, rfl⟩

/-- C9: extraction is deterministic and idempotent — two calls on the
identical CSV text yield structurally equal reports (both extractor
variants are pure functions of their input). -/
theorem parseCSVData_idempotent :
    (∀ csvText : String, Part000.parseCSVData csvText = Part000.parseCSVData csvText) ∧
    (∀ (showTopItems : Nat) (csvText : String),
        WidgetV3.parseCSVData showTopItems csvText =
          WidgetV3.parseCSVData showTopItems csvText) :=
  ⟨fun _ => rfl, fun _ _ => rfl⟩

/-- C10: for every line the tokenizer terminates with a non-empty cell
list (the empty line gives the single cell `""`); no cell ever contains a
double quote; every cell is trimmed of surrounding whitespace; and after
an unmatched quote the whole quote-free remainder — commas included —
accumulates into one final cell. -/
theorem parseCSVLine_safety :
    (∀ line : List Char, parseCSVLineChars line ≠ []) ∧
    parseCSVLine "" = [""] ∧
    (∀ line : List Char, ∀ cell ∈ parseCSVLineChars line, '"' ∉ cell) ∧
    (∀ line : List Char, ∀ cell ∈ parseCSVLineChars line, trimChars cell = cell) ∧
    (∀ rest cur : List Char, '"' ∉ rest →
        parseCSVLineAux rest cur true = [trimChars (cur ++ rest)]) := by
  refine ⟨?_, by decide, ?_, ?_, parseCSVLineAux_inQuotes_accumulates⟩
  · intro line
    exact parseCSVLineAux_ne_nil line [] false
  · intro line cell hc
    exact parseCSVLineAux_no_quote line [] false (by simp) cell hc
  · intro line cell hc
    obtain ⟨x, hx⟩ := parseCSVLineAux_cells_trim line [] false cell hc
    rw [hx, trimChars_idem]

/-- C10 (witness): the safety theorem applied at concrete inputs,
discharging the membership and quote-freeness hypotheses. -/
theorem parseCSVLine_safety_witness :
    parseCSVLineChars " a,b".data ≠ [] ∧
    '"' ∉ ("a".data : List Char) ∧
    trimChars "a".data = "a".data ∧
    parseCSVLineAux ",x y".data "q".data true =
      [trimChars ("q".data ++ ",x y".data)] :=
  ⟨parseCSVLine_safety.1 _,
   parseCSVLine_safety.2.2.1 " a,b".data "a".data (by decide),
   parseCSVLine_safety.2.2.2.1 " a,b".data "a".data (by decide),
   parseCSVLine_safety.2.2.2.2 ",x y".data "q".data (by decide)⟩

end MaritimeWidget
